import Mathlib

/-!
Formal model of the webotron S3 deployment tool (webotron/bucket.py and
webotron/webotron.py): the MD5-based ETag fingerprint routine, the manifest
cache, the upload decision, the recursive directory sync, and the bucket
lifecycle helpers.  Files are modelled as byte lists, the remote bucket as an
association list from key to stored bytes, and Python dicts as functions
to Option.
-/

namespace Webotron

/-- Modulus for one 32-bit MD5 word. -/
def W32 : Nat := 4294967296

/-- The 64 MD5 round constants, in round order. -/
def md5K : List Nat :=
  [3614090360, 3905402710, 606105819, 3250441966,
   4118548399, 1200080426, 2821735955, 4249261313,
   1770035416, 2336552879, 4294925233, 2304563134,
   1804603682, 4254626195, 2792965006, 1236535329,
   4129170786, 3225465664, 643717713, 3921069994,
   3593408605, 38016083, 3634488961, 3889429448,
   568446438, 3275163606, 4107603335, 1163531501,
   2850285829, 4243563512, 1735328473, 2368359562,
   4294588738, 2272392833, 1839030562, 4259657740,
   2763975236, 1272893353, 4139469664, 3200236656,
   681279174, 3936430074, 3572445317, 76029189,
   3654602809, 3873151461, 530742520, 3299628645,
   4096336452, 1126891415, 2878612391, 4237533241,
   1700485571, 2399980690, 4293915773, 2240044497,
   1873313359, 4264355552, 2734768916, 1309151649,
   4149444226, 3174756917, 718787259, 3951481745]

/-- The 64 MD5 per-round left-rotation amounts, in round order. -/
def md5S : List Nat :=
  [7, 12, 17, 22, 7, 12, 17, 22, 7, 12, 17, 22, 7, 12, 17, 22,
   5, 9, 14, 20, 5, 9, 14, 20, 5, 9, 14, 20, 5, 9, 14, 20,
   4, 11, 16, 23, 4, 11, 16, 23, 4, 11, 16, 23, 4, 11, 16, 23,
   6, 10, 15, 21, 6, 10, 15, 21, 6, 10, 15, 21, 6, 10, 15, 21]

/-- Rotate a 32-bit word left by s bits. -/
def rotl32 (x s : Nat) : Nat := ((x <<< s) ||| (x >>> (32 - s))) % W32

/-- The MD5 round function for round i on words b, c, d. -/
def md5F (i b c d : Nat) : Nat :=
  if i < 16 then (b &&& c) ||| ((b ^^^ 4294967295) &&& d)
  else if i < 32 then (d &&& b) ||| ((d ^^^ 4294967295) &&& c)
  else if i < 48 then b ^^^ c ^^^ d
  else c ^^^ (b ||| (d ^^^ 4294967295))

/-- The message-word index used by MD5 round i. -/
def md5G (i : Nat) : Nat :=
  if i < 16 then i
  else if i < 32 then (5 * i + 1) % 16
  else if i < 48 then (3 * i + 5) % 16
  else (7 * i) % 16

/-- Running MD5 state: the four chaining words. -/
structure MD5State where
  a : Nat
  b : Nat
  c : Nat
  d : Nat
deriving DecidableEq, Repr

/-- The MD5 initial chaining state. -/
def md5Init : MD5State := ⟨1732584193, 4023233417, 2562383102, 271733878⟩

/-- One MD5 round: round i over the 16 message words M. -/
def md5Round (M : List Nat) (st : MD5State) (i : Nat) : MD5State :=
  let f := (md5F i st.b st.c st.d + st.a + md5K.getD i 0 + M.getD (md5G i) 0) % W32
  ⟨st.d, (st.b + rotl32 f (md5S.getD i 0)) % W32, st.b, st.c⟩

/-- Process one 64-byte block: decode 16 little-endian words, run 64 rounds,
add the result back into the chaining state. -/
def md5Compress (st : MD5State) (block : List Nat) : MD5State :=
  let M := (List.range 16).map (fun j =>
    block.getD (4 * j) 0 + 256 * block.getD (4 * j + 1) 0 +
    65536 * block.getD (4 * j + 2) 0 + 16777216 * block.getD (4 * j + 3) 0)
  let e := (List.range 64).foldl (md5Round M) st
  ⟨(st.a + e.a) % W32, (st.b + e.b) % W32, (st.c + e.c) % W32, (st.d + e.d) % W32⟩

/-- MD5 padding: append 0x80, zeros to 56 mod 64, then the bit length as
eight little-endian bytes. -/
def md5Pad (msg : List Nat) : List Nat :=
  let len := msg.length
  let k := (119 - len % 64) % 64
  let bl := (8 * len) % 18446744073709551616
  msg ++ [128] ++ List.replicate k 0 ++ (List.range 8).map (fun i => (bl >>> (8 * i)) % 256)

/-- Split a padded message (whose length is a multiple of 64) into its
64-byte blocks. -/
def toBlocks (l : List Nat) : List (List Nat) :=
  (List.range (l.length / 64)).map (fun i => (l.drop (64 * i)).take 64)

/-- Serialize one 32-bit word as four little-endian bytes. -/
def wordBytes (w : Nat) : List Nat :=
  [w % 256, (w >>> 8) % 256, (w >>> 16) % 256, (w >>> 24) % 256]

/-- The 16-byte MD5 digest of a byte list (hashlib digest()). -/
def md5_digest (msg : List Nat) : List Nat :=
  let fin := (toBlocks (md5Pad msg)).foldl md5Compress md5Init
  wordBytes fin.a ++ wordBytes fin.b ++ wordBytes fin.c ++ wordBytes fin.d

/-- Lowercase hex character for a value below 16. -/
def hexChar (n : Nat) : Char :=
  if n < 10 then Char.ofNat (48 + n) else Char.ofNat (87 + n)

/-- The 32-character lowercase hex MD5 digest of a byte list
(hashlib hexdigest()). -/
def md5_hexdigest (msg : List Nat) : String :=
  String.mk ((md5_digest msg).foldr
    (fun b acc => hexChar (b / 16) :: hexChar (b % 16) :: acc) [])

/-- CHUNK_SIZE from BucketManager: 8 MiB, used both as the transfer-config
multipart chunk size and as the fingerprint read size. -/
def CHUNK_SIZE : Nat := 8388608

/-- The body of the while-loop inside gen_etag, iterated on the unread rest
of the file: each iteration sets data to the next f.read(CHUNK_SIZE) and
breaks when the read returns no bytes.  The result is the final value of the
loop variable data, i.e. the read that terminated the loop.  The structural
iteration budget only bounds the number of reads; every read but the last
consumes CHUNK_SIZE bytes, so the budget passed by readLoop is never
exhausted. -/
def readLoopAux : Nat → List Nat → List Nat
  | 0, rest => rest.take CHUNK_SIZE
  | fuel + 1, rest =>
    if (rest.take CHUNK_SIZE).isEmpty then rest.take CHUNK_SIZE
    else readLoopAux fuel (rest.drop CHUNK_SIZE)

/-- The while-loop inside gen_etag, started on the whole file content. -/
def readLoop (content : List Nat) : List Nat := readLoopAux (content.length + 1) content

/-- An md5 hash object, determined by the byte string fed to update. -/
structure HashObj where
  data : List Nat
deriving DecidableEq, Repr

/-- hexdigest() of a hash object. -/
def HashObj.hexdigest (h : HashObj) : String := md5_hexdigest h.data

/-- digest() of a hash object: the 16 raw digest bytes. -/
def HashObj.digest (h : HashObj) : List Nat := md5_digest h.data

/-- hash_data from BucketManager: a fresh md5 hash object updated with the
given data. -/
def hash_data (data : List Nat) : HashObj := ⟨data⟩

/-- gen_etag from BucketManager, translated statement by statement.  The
hashes.append(hash_data(data)) line in the source is indented at the level of
the while statement, not of the loop body, so it runs once, after the loop,
on the final value of data. -/
def gen_etag (content : List Nat) : Option String :=
  let data := readLoop content
  let hashes : List HashObj := [] ++ [hash_data data]
  if hashes.length = 0 then
    none
  else if hashes.length = 1 then
    some ("\"" ++ (hashes.getD 0 (hash_data [])).hexdigest ++ "\"")
  else
    let combined : List Nat :=
      match hashes.map HashObj.digest with
      | [] => []
      | d :: ds => ds.foldl (fun x y => x ++ y) d
    some ("\"" ++ (hash_data combined).hexdigest ++ "-" ++ toString hashes.length ++ "\"")

/-- A Python dict from string to string, as a partial function; keys not
present map to none. -/
abbrev Dict : Type := String → Option String

/-- Dict assignment: d[k] = v. -/
def dictSet (d : Dict) (k v : String) : Dict :=
  fun q => if q = k then some v else d q

/-- Dict lookup with default: d.get(k, dflt). -/
def dictGet (d : Dict) (k dflt : String) : String := (d k).getD dflt

/-- The empty dict, the value of self.manifest set by BucketManager.__init__. -/
def emptyDict : Dict := fun _ => none

/-- load_maifest from BucketManager: for every page of the paginated
list_objects_v2 response, for every entry of the page, record key to ETag in
self.manifest.  The dict is written into in place; nothing clears it first. -/
def load_maifest (manifest : Dict) (pages : List (List (String × String))) : Dict :=
  pages.foldl (fun m page => page.foldl (fun acc obj => dictSet acc obj.1 obj.2) m) manifest

/-- The remote bucket: the stored objects, as a key-to-bytes association
list in listing order. -/
abbrev Remote : Type := List (String × List Nat)

/-- Store an object in the bucket: overwrite the bytes held under the key,
or add a new object at the end. -/
def remotePut (remote : Remote) (key : String) (content : List Nat) : Remote :=
  if (remote : List _).any (fun p => p.1 = key) then
    (remote : List _).map (fun p => if p.1 = key then (key, content) else p)
  else remote ++ [(key, content)]

/-- Modelled from the spec: the ETag the object store computes for an
uploaded object, which the spec requires the local fingerprint to mirror
exactly: for at most one 8 MiB chunk the quoted hex MD5 of the whole bytes,
for N > 1 chunks the quoted hex MD5 of the concatenated per-chunk binary
digests suffixed with -N. -/
def s3_etag (content : List Nat) : String :=
  let chunks := (List.range ((content.length + CHUNK_SIZE - 1) / CHUNK_SIZE)).map
    (fun i => (content.drop (CHUNK_SIZE * i)).take CHUNK_SIZE)
  if chunks.length ≤ 1 then "\"" ++ md5_hexdigest content ++ "\""
  else
    "\"" ++ md5_hexdigest (chunks.foldl (fun acc c => acc ++ md5_digest c) []) ++
      "-" ++ toString chunks.length ++ "\""

/-- Modelled from the spec: one page of the bucket listing, giving every
stored key with the ETag the store computed for its bytes, already quoted. -/
def listingOf (remote : Remote) : List (String × String) :=
  (remote : List _).map (fun p => (p.1, s3_etag p.2))

/-- Modelled from the spec: content type resolved from the filename
extension (mimetypes.guess_type is the Python standard library, outside this
repository); upload_file only consults it through its getD 'text/plain'. -/
def guess_type (key : String) : Option String :=
  if key.endsWith ".html" then some "text/html"
  else if key.endsWith ".png" then some "image/png"
  else none

/-- Outcome of one upload_file call. -/
inductive UploadResult where
  | skipped
  | uploaded (contentType : String)
deriving DecidableEq, Repr

/-- upload_file from BucketManager: resolve a content type, generate the
etag for the local file, return early (skip) when the manifest entry for the
key, defaulting to the empty string, equals that etag, and otherwise upload
the object to the bucket. -/
def upload_file (manifest : Dict) (remote : Remote) (content : List Nat) (key : String) :
    UploadResult × Remote :=
  let content_type := (guess_type key).getD "text/plain"
  let etag := gen_etag content
  if some (dictGet manifest key "") = etag then (UploadResult.skipped, remote)
  else (UploadResult.uploaded content_type, remotePut remote key content)

/-- A local directory tree: entries are named files (with their byte
content) or named subdirectories, listed in iteration order. -/
inductive FSTree where
  | file (content : List Nat)
  | dir (entries : List (String × FSTree))

/-- State threaded through handle_directory: the remote bucket, plus the
keys actually uploaded so far, in order. -/
abbrev SyncSt : Type := Remote × List String

/-- One self.upload_file call made by handle_directory, recording the key
when the call uploads rather than skips. -/
def uploadStep (manifest : Dict) (key : String) (content : List Nat) (st : SyncSt) : SyncSt :=
  match upload_file manifest st.1 content key with
  | (UploadResult.skipped, r) => (r, st.2)
  | (UploadResult.uploaded _, r) => (r, st.2 ++ [key])

/-- handle_directory from BucketManager.sync: iterate the entries in order,
recurse into each directory, and upload each file under the key
str(path.relative_to(root)), i.e. the accumulated relative components joined
by the host path separator sep. -/
def handleDir (manifest : Dict) (sep : String) :
    List String → List (String × FSTree) → SyncSt → SyncSt
  | _, [], st => st
  | rel, (name, FSTree.file c) :: rest, st =>
      handleDir manifest sep rel rest
        (uploadStep manifest (String.intercalate sep (rel ++ [name])) c st)
  | rel, (name, FSTree.dir es) :: rest, st =>
      handleDir manifest sep rel rest (handleDir manifest sep (rel ++ [name]) es st)

/-- The FileRecords of the walk: relative path components and byte content
of every file below the given entries, in traversal order. -/
def walkEntries : List (String × FSTree) → List (List String × List Nat)
  | [] => []
  | (name, FSTree.file c) :: rest => ([name], c) :: walkEntries rest
  | (name, FSTree.dir es) :: rest =>
      (walkEntries es).map (fun r => (name :: r.1, r.2)) ++ walkEntries rest

/-- sync from BucketManager: load the manifest from the bucket listing, then
walk the resolved root with handle_directory.  The root tree stands for the
resolved root directory, sep for the path separator the host's str() uses on
paths, and the listing is served from the current remote state. -/
def sync (manifest₀ : Dict) (sep : String) (remote : Remote) (root : List (String × FSTree)) :
    Dict × SyncSt :=
  let manifest := load_maifest manifest₀ [listingOf remote]
  (manifest, handleDir manifest sep [] root (remote, []))

/-- A botocore ClientError, carrying the code of its error response. -/
structure ClientErr where
  code : String
deriving DecidableEq, Repr

/-- Outcome of the s3.create_bucket call issued by init_bucket. -/
inductive CreateOutcome where
  | ok (bucket : String)
  | err (e : ClientErr)
deriving DecidableEq, Repr

/-- init_bucket from BucketManager: return the bucket created in the
session's region; on a ClientError whose code is BucketAlreadyOwnedByYou
return the existing bucket named bucket_name instead; re-raise any other
ClientError. -/
def init_bucket (create : CreateOutcome) (bucket_name : String) : Except ClientErr String :=
  match create with
  | CreateOutcome.ok b => Except.ok b
  | CreateOutcome.err e =>
      if e.code = "BucketAlreadyOwnedByYou" then Except.ok bucket_name
      else Except.error e

/-- get_region_name from BucketManager: the LocationConstraint of the
get_bucket_location response, with a falsy value (absent, modelled as none,
or the empty string) replaced by us-east-1 via the or idiom. -/
def get_region_name (locationConstraint : Option String) : String :=
  match locationConstraint with
  | none => "us-east-1"
  | some r => if r = "" then "us-east-1" else r

/-- An entry of the region-to-endpoint table: the website host of the
region. -/
structure Endpoint where
  host : String

/-- get_bucket_url from BucketManager: the http scheme, the bucket name, a
dot, and the website host looked up for the bucket's resolved region.  The
table util.get_endpoint is passed as a function, modelled from the spec: the
util module is not part of this source snapshot. -/
def get_bucket_url (endpoints : String → Endpoint) (bucket_name : String)
    (locationConstraint : Option String) : String :=
  "http://" ++ bucket_name ++ "." ++ (endpoints (get_region_name locationConstraint)).host

/-- Fixture: a root directory holding the single file index.html with one
byte of content. -/
def tree₀ : List (String × FSTree) := [("index.html", FSTree.file [97])]

/-- Fixture: a root directory holding the subdirectory sub with the single
file a.html. -/
def tree₁ : List (String × FSTree) := [("sub", FSTree.dir [("a.html", FSTree.file [97])])]

/-- Fixture: a manifest holding the constant buggy etag for index.html. -/
def manifest₁ : Dict :=
  dictSet emptyDict "index.html" "\"d41d8cd98f00b204e9800998ecf8427e\""

/-- Fixture: a manifest holding one stale entry under the key old. -/
def manifestOld : Dict := dictSet emptyDict "old" "e1"

/-- Fixture: a one-object remote store. -/
def remote₁ : Remote := [("index.html", [97])]

/-- Fixture: a file spanning exactly two 8 MiB chunks, all zero bytes. -/
def bigfile : List Nat := List.replicate (2 * CHUNK_SIZE) 0

set_option maxRecDepth 100000

/-- With more iterations in the budget than bytes in the rest, the read loop
finishes with data equal to the empty read. -/
theorem readLoopAux_nil (fuel : Nat) : ∀ rest : List Nat, rest.length < fuel →
    readLoopAux fuel rest = [] := by
  induction fuel with
  | zero => exact fun rest h => absurd h (Nat.not_lt_zero _)
  | succ fuel ih =>
    intro rest h
    rw [readLoopAux]
    by_cases he : (rest.take CHUNK_SIZE).isEmpty
    · rw [if_pos he]
      exact List.isEmpty_iff.mp he
    · rw [if_neg he]
      refine ih _ ?_
      rw [List.length_drop]
      have hc : (0 : Nat) < CHUNK_SIZE := by decide
      have hne : rest ≠ [] := by
        intro hr
        rw [hr] at he
        exact he rfl
      have hpos : 0 < rest.length := List.length_pos.mpr hne
      omega

/-- The read loop of gen_etag always finishes with data equal to the empty
read, regardless of the file's content. -/
theorem readLoop_nil (content : List Nat) : readLoop content = [] :=
  readLoopAux_nil _ content (Nat.lt_succ_self _)

/-- gen_etag returns the quoted hex md5 of the empty byte string on every
input. -/
theorem gen_etag_const (content : List Nat) :
    gen_etag content = some "\"d41d8cd98f00b204e9800998ecf8427e\"" := by
  unfold gen_etag
  rw [readLoop_nil]
  rfl

/-- Folding dict assignments over entries none of which carry the key leaves
the dict unchanged at that key. -/
theorem foldl_dictSet_not_mem (l : List (String × String)) (m : Dict) (key : String)
    (h : ∀ q ∈ l, q.1 ≠ key) :
    (l.foldl (fun acc obj => dictSet acc obj.1 obj.2) m) key = m key := by
  induction l generalizing m with
  | nil => rfl
  | cons p t ih =>
    simp only [List.foldl_cons]
    rw [ih _ (fun q hq => h q (List.mem_cons_of_mem _ hq))]
    unfold dictSet
    rw [if_neg (fun hk => h p (List.mem_cons_self _ _) hk.symm)]

/-- Folding dict assignments over entries that carry the key, always with
the same ETag, sets the key to that ETag. -/
theorem foldl_dictSet_mem (l : List (String × String)) (m : Dict) (key etag : String)
    (hmem : (key, etag) ∈ l) (huniq : ∀ q ∈ l, q.1 = key → q.2 = etag) :
    (l.foldl (fun acc obj => dictSet acc obj.1 obj.2) m) key = some etag := by
  induction l generalizing m with
  | nil => cases hmem
  | cons p t ih =>
    simp only [List.foldl_cons]
    by_cases ht : ∃ q ∈ t, q.1 = key
    · obtain ⟨q, hq, hqk⟩ := ht
      have hq2 : q.2 = etag := huniq q (List.mem_cons_of_mem _ hq) hqk
      have hq' : (key, etag) ∈ t := by
        have : q = (key, etag) := by
          cases q
          simp_all
        rwa [this] at hq
      exact ih _ hq' (fun r hr hk => huniq r (List.mem_cons_of_mem _ hr) hk)
    · push_neg at ht
      have hp : p = (key, etag) := by
        rcases List.mem_cons.mp hmem with h1 | h2
        · exact h1.symm
        · exact absurd rfl (ht _ h2)
      rw [foldl_dictSet_not_mem t _ key ht, hp]
      unfold dictSet
      rw [if_pos rfl]

/-- load_maifest over all pages acts like a single fold over the flattened
listing. -/
theorem load_maifest_eq_foldl (manifest : Dict) (pages : List (List (String × String))) :
    load_maifest manifest pages =
      pages.flatten.foldl (fun acc obj => dictSet acc obj.1 obj.2) manifest := by
  induction pages generalizing manifest with
  | nil => rfl
  | cons page rest ih =>
    unfold load_maifest at ih ⊢
    simp only [List.foldl_cons, List.flatten_cons, List.foldl_append]
    exact ih _

/-- The raw MD5 digest always holds sixteen bytes. -/
theorem md5_digest_length (msg : List Nat) : (md5_digest msg).length = 16 := by
  simp [md5_digest, wordBytes]

/-- The hex pair fold produces two characters per input byte. -/
theorem foldr_hexpair_length (l : List Nat) :
    (l.foldr (fun b acc => hexChar (b / 16) :: hexChar (b % 16) :: acc) []).length =
      2 * l.length := by
  induction l with
  | nil => rfl
  | cons b t ih =>
    simp only [List.foldr_cons, List.length_cons, ih]
    omega

/-- Length of a string built from an explicit character list. -/
theorem string_mk_length (l : List Char) : (String.mk l).length = l.length := rfl

/-- The hex MD5 digest always holds 32 characters. -/
theorem md5_hexdigest_length (msg : List Nat) : (md5_hexdigest msg).length = 32 := by
  unfold md5_hexdigest
  rw [string_mk_length, foldr_hexpair_length, md5_digest_length]

/-- handle_directory is the fold of the upload step over the walk's
FileRecords, each keyed by its relative components joined with the host
separator. -/
theorem handleDir_eq_walk (manifest : Dict) (sep : String) (rel : List String)
    (entries : List (String × FSTree)) (st : SyncSt) :
    handleDir manifest sep rel entries st =
      (walkEntries entries).foldl
        (fun acc r => uploadStep manifest (String.intercalate sep (rel ++ r.1)) r.2 acc) st := by
  induction rel, entries, st using handleDir.induct manifest sep with
  | case1 rel st => simp only [handleDir, walkEntries, List.foldl_nil]
  | case2 rel name c rest st ih =>
    simp only [handleDir, walkEntries, List.foldl_cons]
    exact ih
  | case3 rel name es rest st ih1 ih2 =>
    simp only [handleDir, walkEntries, List.foldl_append, List.foldl_map]
    rw [ih2, ih1]
    congr 2
    funext acc r
    simp

/-- C1 (code_bug evaluation): at the one-byte file 0x61, which is non-empty
and fits in one chunk, gen_etag returns the quoted hex MD5 of the empty byte
string, not the quoted hex MD5 of the whole file's bytes, so the
single-chunk fingerprint contract fails on the code. -/
theorem gen_etag_ignores_single_chunk :
    gen_etag [97] = some "\"d41d8cd98f00b204e9800998ecf8427e\"" ∧
    md5_hexdigest [97] = "0cc175b9c0f1b6a831c399e269772661" ∧
    gen_etag [97] ≠ some ("\"" ++ md5_hexdigest [97] ++ "\"") :=
  ⟨rfl, rfl, by decide⟩

/-- C2 (code_bug evaluation): a file of exactly two 8 MiB chunks receives
the same constant fingerprint in single-chunk format, not the multipart
format, quoted hex MD5 of the two concatenated binary chunk digests
suffixed with -2, that the claim requires. -/
theorem gen_etag_ignores_multi_chunk :
    gen_etag bigfile = some "\"d41d8cd98f00b204e9800998ecf8427e\"" ∧
    gen_etag bigfile ≠
      some ("\"" ++ md5_hexdigest (md5_digest (bigfile.take CHUNK_SIZE) ++
        md5_digest (bigfile.drop CHUNK_SIZE)) ++ "-2\"") := by
  refine ⟨gen_etag_const bigfile, ?_⟩
  intro h
  rw [gen_etag_const bigfile] at h
  have h2 := Option.some.inj h
  have hl := congrArg String.length h2
  rw [String.length_append, String.length_append, md5_hexdigest_length] at hl
  exact absurd hl (by decide)

/-- C3: whenever the loaded manifest's entry for the key equals the
fingerprint gen_etag computes for the file, upload_file skips: no upload
call happens and the remote bucket state is returned unchanged. -/
theorem upload_file_skips_on_manifest_match (manifest : Dict) (remote : Remote)
    (content : List Nat) (key : String)
    (h : manifest key = gen_etag content) :
    upload_file manifest remote content key = (UploadResult.skipped, remote) := by
  unfold upload_file dictGet
  rw [h, gen_etag_const content]
  simp

/-- Witness for C3 at a concrete manifest, remote store, file and key. -/
theorem upload_file_skips_on_manifest_match_app :
    upload_file manifest₁ remote₁ [97] "index.html" = (UploadResult.skipped, remote₁) :=
  upload_file_skips_on_manifest_match manifest₁ remote₁ [97] "index.html" rfl

/-- C4 (code_bug evaluation): the first sync of a root holding index.html
(bytes 0x61) uploads it; when the second sync's manifest holds exactly the
ETag the store computed for that upload, the second run still re-uploads the
unchanged file instead of performing zero uploads. -/
theorem resync_reuploads_unchanged_file :
    (sync emptyDict "/" [] tree₀).2 = ([("index.html", [97])], ["index.html"]) ∧
    (sync emptyDict "/" [("index.html", [97])] tree₀).1 "index.html" = some (s3_etag [97]) ∧
    (sync emptyDict "/" [("index.html", [97])] tree₀).2.2 = ["index.html"] ∧
    (["index.html"] : List String) ≠ [] := by
  have hse : s3_etag [97] = "\"0cc175b9c0f1b6a831c399e269772661\"" := by decide
  have hk : String.intercalate "/" ["index.html"] = "index.html" := rfl
  refine ⟨?_, ?_, ?_, by decide⟩
  · simp [sync, tree₀, listingOf, load_maifest, handleDir, uploadStep, upload_file,
      gen_etag_const, dictGet, dictSet, emptyDict, remotePut, hk]
  · simp [sync, listingOf, load_maifest, dictSet, emptyDict]
  · simp [sync, tree₀, listingOf, load_maifest, handleDir, uploadStep, upload_file,
      gen_etag_const, dictGet, dictSet, emptyDict, remotePut, hk, hse]

/-- C5: init_bucket turns a creation failure with code BucketAlreadyOwnedByYou
into the existing bucket named bucket_name, and re-raises every other
creation error unchanged. -/
theorem init_bucket_recovers_already_owned (name : String) (e : ClientErr)
    (h : e.code ≠ "BucketAlreadyOwnedByYou") :
    init_bucket (CreateOutcome.err ⟨"BucketAlreadyOwnedByYou"⟩) name = Except.ok name ∧
    init_bucket (CreateOutcome.err e) name = Except.error e := by
  constructor
  · rfl
  · show (if e.code = "BucketAlreadyOwnedByYou" then Except.ok name
        else Except.error e) = Except.error e
    rw [if_neg h]

/-- Witness for C5 with an AccessDenied creation error. -/
theorem init_bucket_recovers_already_owned_app :
    init_bucket (CreateOutcome.err ⟨"BucketAlreadyOwnedByYou"⟩) "mybucket" =
      Except.ok "mybucket" ∧
    init_bucket (CreateOutcome.err ⟨"AccessDenied"⟩) "mybucket" =
      Except.error ⟨"AccessDenied"⟩ :=
  init_bucket_recovers_already_owned "mybucket" ⟨"AccessDenied"⟩ (by decide)

/-- C6: get_bucket_url is the http scheme, the bucket name, a dot, and the
endpoint host looked up for the bucket's resolved region, where a null or
empty LocationConstraint normalizes to us-east-1. -/
theorem get_bucket_url_form (endpoints : String → Endpoint) (bucket_name : String)
    (loc : Option String) :
    get_bucket_url endpoints bucket_name loc =
      "http://" ++ bucket_name ++ "." ++ (endpoints (get_region_name loc)).host ∧
    get_region_name none = "us-east-1" ∧
    get_region_name (some "") = "us-east-1" ∧
    get_region_name (some "ap-south-1") = "ap-south-1" :=
  ⟨rfl, rfl, rfl, rfl⟩

/-- C7 counterexample: on a host whose path separator is a backslash, the
file at root/sub/a.html is uploaded under the backslash-joined key, which
differs from sub/a.html. -/
theorem sync_key_uses_host_separator_cex :
    (sync emptyDict "\\" [] tree₁).2.2 = ["sub\\a.html"] ∧
    "sub\\a.html" ≠ "sub/a.html" := by
  have hk : String.intercalate "\\" ["sub", "a.html"] = "sub\\a.html" := rfl
  refine ⟨?_, by decide⟩
  simp [sync, tree₁, listingOf, load_maifest, handleDir, uploadStep, upload_file,
    gen_etag_const, dictGet, dictSet, emptyDict, remotePut, hk]

/-- C7 amended: every file reached by the directory walk is keyed by its
path relative to the resolved root with components joined by the host path
separator; with separator / the file at root/sub/a.html yields key
sub/a.html. -/
theorem sync_keys_join_relative_components (manifest : Dict) (sep : String)
    (entries : List (String × FSTree)) (st : SyncSt) :
    handleDir manifest sep [] entries st =
      (walkEntries entries).foldl
        (fun acc r => uploadStep manifest (String.intercalate sep r.1) r.2 acc) st ∧
    (sync emptyDict "/" [] tree₁).2.2 = ["sub/a.html"] := by
  have hk : String.intercalate "/" ["sub", "a.html"] = "sub/a.html" := rfl
  constructor
  · rw [handleDir_eq_walk]
    simp
  · simp [sync, tree₁, listingOf, load_maifest, handleDir, uploadStep, upload_file,
      gen_etag_const, dictGet, dictSet, emptyDict, remotePut, hk]

/-- C8 counterexample: loading a listing that does not carry the key old
leaves the stale entry under old in the manifest, so the manifest holds an
entry carried over from before the load. -/
theorem load_maifest_carries_over_cex :
    load_maifest manifestOld [[("new", "e2")]] "old" = some "e1" ∧
    (some "e1" : Option String) ≠ none :=
  ⟨rfl, by decide⟩

/-- C8 amended: load_maifest merges the listing into the existing manifest:
every key listed on any page, with one listed ETag, maps to that ETag
afterwards, while entries under keys absent from the whole listing persist
unchanged, rather than the manifest being built fresh. -/
theorem load_maifest_merges_listing (m : Dict) (pages : List (List (String × String)))
    (key etag other : String)
    (hmem : (key, etag) ∈ pages.flatten)
    (huniq : ∀ q ∈ pages.flatten, q.1 = key → q.2 = etag)
    (hout : ∀ q ∈ pages.flatten, q.1 ≠ other) :
    load_maifest m pages key = some etag ∧ load_maifest m pages other = m other := by
  rw [load_maifest_eq_foldl]
  exact ⟨foldl_dictSet_mem _ _ _ _ hmem huniq, foldl_dictSet_not_mem _ _ _ hout⟩

/-- Witness for C8 amended on a one-page listing and a stale manifest. -/
theorem load_maifest_merges_listing_app :
    load_maifest manifestOld [[("new", "e2")]] "new" = some "e2" ∧
    load_maifest manifestOld [[("new", "e2")]] "old" = manifestOld "old" :=
  load_maifest_merges_listing manifestOld [[("new", "e2")]] "new" "e2" "old"
    (by decide) (by decide) (by decide)

/-- C9: gen_etag depends only on the file's byte content: two calls on files
with identical bytes return identical fingerprints. -/
theorem gen_etag_deterministic (c1 c2 : List Nat) (h : c1 = c2) :
    gen_etag c1 = gen_etag c2 := by
  rw [h]

/-- Witness for C9 at the one-byte file. -/
theorem gen_etag_deterministic_app : gen_etag [97] = gen_etag [97] :=
  gen_etag_deterministic [97] [97] rfl

/-- C10: on every readable file, whatever its size or content, gen_etag
returns the quoted hex MD5 of the empty byte string: the hashes list holds
exactly the one digest of the final empty read, so neither the none branch
nor the multipart branch ever runs. -/
theorem gen_etag_always_empty_md5 (content : List Nat) :
    gen_etag content = some "\"d41d8cd98f00b204e9800998ecf8427e\"" ∧
    gen_etag content = some ("\"" ++ md5_hexdigest [] ++ "\"") :=
  ⟨gen_etag_const content, gen_etag_const content⟩

end Webotron
